import Mathlib

/-!
Shallow embedding of the process-supervisor program app3.py
(directory Run on Boot) together with theorems checking its
natural-language specification against the code.  Line numbers in
doc comments refer to app3.py.
-/

set_option maxHeartbeats 1000000

/-- Python str.join: joins a list of strings with a separator.  Models
the join calls at lines 83, 260 and 301 of app3.py. -/
def joinSep (sep : String) : List String → String
  | [] => ""
  | [x] => x
  | x :: xs => x ++ sep ++ joinSep sep xs

/-- Python slice l[-n:]: the last n elements of a list (all of them when
the list is shorter than n). -/
def takeLast {α : Type} (n : Nat) (l : List α) : List α :=
  l.drop (l.length - n)

/-- Lines 101-104 of read_process_output: append one decoded line to a
slot buffer, then keep only the last 100 entries when the bound is
exceeded (the slice with index -100). -/
def ringAppend (buf : List String) (line : String) : List String :=
  if (buf ++ [line]).length > 100 then takeLast 100 (buf ++ [line])
  else buf ++ [line]

/-- A Python runtime value read from the process stdout stream: either a
text-mode str or a bytes object.  The distinction matters because the
Popen call at lines 140-148 passes universal_newlines set to True, so
readline at line 96 yields str, while line 98 calls decode on the
value as if it were bytes. -/
inductive PyVal where
  | pstr (s : String)
  | pbytes (bs : List Nat)
  deriving DecidableEq, Repr

/-- Python truthiness of the readline result (line 97). -/
def pyTruthy : PyVal → Bool
  | .pstr s => !(s == "")
  | .pbytes bs => !bs.isEmpty

/-- Whether a byte is a UTF-8 continuation byte. -/
def isCont (b : Nat) : Bool := 0x80 ≤ b && b < 0xC0

/-- Number of continuation bytes a UTF-8 lead byte announces (0 for an
invalid lead byte). -/
def contCount (b : Nat) : Nat :=
  if b < 0xC2 then 0
  else if b < 0xE0 then 1
  else if b < 0xF0 then 2
  else if b < 0xF5 then 3
  else 0

/-- Value bits carried by a UTF-8 lead byte. -/
def leadBits (b : Nat) : Nat :=
  if b < 0xE0 then b - 0xC0
  else if b < 0xF0 then b - 0xE0
  else b - 0xF0

/-- Best-effort UTF-8 decoding of a byte sequence that silently drops
malformed bytes; models bytes.decode with the utf-8 codec and
errors=ignore at line 98.  The function is total: malformed input
never makes it fail. -/
def decodeUtf8Ignore : List Nat → List Char
  | [] => []
  | b :: rest =>
    if b < 0x80 then Char.ofNat b :: decodeUtf8Ignore rest
    else
      let n := contCount b
      let conts := rest.take n
      if n ≠ 0 ∧ conts.length = n ∧ conts.all isCont then
        Char.ofNat (conts.foldl (fun acc c => acc * 0x40 + (c - 0x80)) (leadBits b)) ::
          decodeUtf8Ignore (rest.drop n)
      else decodeUtf8Ignore rest
termination_by l => l.length
decreasing_by
  all_goals simp [List.length_drop]
  omega

/-- Line 98: output.decode with utf-8 and errors=ignore.  On a bytes
value this decodes permissively and always succeeds; on a text-mode str
value the attribute lookup of decode raises AttributeError, because a
Python 3 str has no decode method. -/
def pyDecode : PyVal → Except String String
  | .pbytes bs => .ok (String.mk (decodeUtf8Ignore bs))
  | .pstr _ => .error "AttributeError"

/-- A socketio terminal_output event: slot id and output text
(lines 107-111).  The timestamp field of the real event is wall-clock
time and is not modeled. -/
structure OutEvent where
  id : Nat
  output : String
  deriving DecidableEq, Repr

/-- State touched by one iteration of the output pump for one slot: the
ring buffer terminal_outputs[terminal_id] and the stream of emitted
socketio events. -/
structure PumpSt where
  buffer : List String
  emits : List OutEvent
  deriving DecidableEq, Repr

/-- Lines 96-114 of read_process_output: handling of one readline
result.  If the value is truthy it is decoded (line 98); any exception
inside the inner try - including the AttributeError raised by calling
decode on a text-mode str - is swallowed at lines 112-114, dropping the
line.  On a successful decode the stripped text, when non-empty, is
appended to the ring buffer (with the 100-entry trim) and emitted as a
terminal_output event with a trailing newline. -/
def pump_handle_read (terminal_id : Nat) (output : PyVal) (st : PumpSt) : PumpSt :=
  if pyTruthy output then
    match pyDecode output with
    | .error _ => st
    | .ok s =>
      let output_text := s.trim
      if output_text ≠ "" then
        { buffer := ringAppend st.buffer output_text,
          emits := st.emits ++ [{ id := terminal_id, output := output_text ++ "\n" }] }
      else st
  else st

/-- Line 147: the Popen call passes universal_newlines set to True, so
the child stdout pipe is opened in text mode. -/
def popen_universal_newlines : Bool := true

/-- The value readline (line 96) returns for one raw output line, as
determined by the text-mode flag chosen at the Popen call site. -/
def readline_value (raw : String) : PyVal :=
  if popen_universal_newlines then .pstr raw
  else .pbytes (raw.toUTF8.toList.map (fun b => b.toNat))

theorem takeLast_of_le {α : Type} {l : List α} {n : Nat} (h : l.length ≤ n) :
    takeLast n l = l := by
  unfold takeLast
  rw [Nat.sub_eq_zero_of_le h, List.drop_zero]

theorem length_takeLast {α : Type} (n : Nat) (l : List α) :
    (takeLast n l).length = min n l.length := by
  unfold takeLast
  rw [List.length_drop]
  omega

theorem takeLast_append_absorb {α : Type} (n : Nat) (xs ys : List α) :
    takeLast n (takeLast n xs ++ ys) = takeLast n (xs ++ ys) := by
  by_cases h : xs.length ≤ n
  · rw [takeLast_of_le h]
  · have hk : xs.length - n ≤ xs.length := Nat.sub_le _ _
    show takeLast n (xs.drop (xs.length - n) ++ ys) = takeLast n (xs ++ ys)
    have hlen : (xs.drop (xs.length - n)).length = n := by
      rw [List.length_drop]; omega
    unfold takeLast
    rw [List.length_append, hlen, List.length_append]
    have e1 : n + ys.length - n = ys.length := by omega
    have e2 : xs.length + ys.length - n = (xs.length - n) + ys.length := by omega
    rw [e1, e2, ← List.drop_drop, List.drop_append_of_le_length hk]

theorem ringAppend_eq_takeLast (buf : List String) (line : String) :
    ringAppend buf line = takeLast 100 (buf ++ [line]) := by
  unfold ringAppend
  by_cases h : (buf ++ [line]).length > 100
  · rw [if_pos h]
  · rw [if_neg h, takeLast_of_le (by omega)]

theorem foldl_ringAppend_eq (lines : List String) :
    ∀ buf : List String, buf.length ≤ 100 →
      lines.foldl ringAppend buf = takeLast 100 (buf ++ lines) := by
  induction lines with
  | nil =>
    intro buf h
    rw [List.foldl_nil, List.append_nil, takeLast_of_le h]
  | cons a as ih =>
    intro buf h
    rw [List.foldl_cons]
    have hlen : (ringAppend buf a).length ≤ 100 := by
      rw [ringAppend_eq_takeLast, length_takeLast]; omega
    rw [ih _ hlen, ringAppend_eq_takeLast, takeLast_append_absorb,
      List.append_assoc, List.singleton_append]

/-- C1: the output pump is claimed to append each non-empty line to the
ring buffer and emit an OutputEvent.  In the code as written this never
happens: Popen is invoked with universal_newlines set to True (line
147) while line 98 still calls decode on the value readline returns, so
every line raises AttributeError, which lines 112-114 swallow.  This
theorem evaluates the pump at a plain non-empty line and shows the
buffer and the event stream are left untouched. -/
theorem C1_pump_text_mode_line_dropped :
    pump_handle_read 1 (readline_value (String.mk ['h', 'e', 'l', 'l', 'o', '\n']))
        { buffer := [], emits := [] } =
      { buffer := [], emits := [] } := by
  rfl

/-- C3: starting from the empty per-slot buffer, any sequence of lines
appended through the output pump append discipline (lines 101-104)
leaves at most 100 entries, and the retained entries are exactly the
most recent lines in their original order, i.e. the oldest entries are
evicted first. -/
theorem C3_ring_buffer_fifo_bound (lines : List String) :
    (lines.foldl ringAppend []).length ≤ 100 ∧
    lines.foldl ringAppend [] = takeLast 100 lines := by
  have h := foldl_ringAppend_eq lines [] (by simp)
  rw [List.nil_append] at h
  exact ⟨by rw [h, length_takeLast]; omega, h⟩

/-- Lines 30-36: the ROS environment setup command list. -/
def ros_setup_commands : List String :=
  ["source /opt/ros/noetic/setup.bash",
   "source /home/nvidia/dlio_ws/devel/setup.bash",
   "export PYTHONPATH=/opt/ros/noetic/lib/python3/dist-packages:$PYTHONPATH",
   "export ROS_MASTER_URI=http://localhost:11311",
   "export ROS_HOSTNAME=localhost"]

/-- One entry of the terminal_commands dictionary (lines 38-74): display
name, optional initialization command list, main command and settle
delay.  The init field is an Option because slot 6 has no init key. -/
structure SlotSpec where
  name : String
  init : Option (List String)
  start : String
  delay : Nat
  deriving DecidableEq, Repr

/-- Lines 38-74: the terminal_commands dictionary mapping slot ids 1-6
to their launch specification; none for any other id. -/
def terminal_commands : Nat → Option SlotSpec
  | 1 => some { name := "DLIO", init := some ros_setup_commands,
                start := "roslaunch direct_lidar_inertial_odometry dlio.launch rviz:=false pointcloud_topic:=/rslidar_points imu_topic:=/rslidar_imu_data",
                delay := 2 }
  | 2 => some { name := "Mavros to Pixhawk", init := some ros_setup_commands,
                start := "roslaunch mavros apm.launch fcu_url:=/dev/ttyUSB0:921600",
                delay := 3 }
  | 3 => some { name := "Airy SDK", init := some ros_setup_commands,
                start := "roslaunch rslidar_sdk start.launch",
                delay := 4 }
  | 4 => some { name := "Save DLIO Output", init := some ros_setup_commands,
                start := "python3 /home/nvidia/dlio_ws/src/saverostopic.py",
                delay := 5 }
  | 5 => some { name := "DLIO to Mavros Publisher", init := some ros_setup_commands,
                start := "python3 /home/nvidia/dlio_ws/src/dlio-Mavros_bridge/scripts/test13.py",
                delay := 1 }
  | 6 => some { name := "Save PCAP File", init := none,
                start := "tshark -i eth0 -w /home/nvidia/FLASK_CSD/PCAP_tshark/capture.pcap",
                delay := 1 }
  | _ => none

/-- Line 271 and line 211: terminal_commands[id].get with key delay and
default 1. -/
def delayOf (id : Nat) : Nat :=
  match terminal_commands id with
  | some spec => spec.delay
  | none => 1

/-- Lines 80-85: create_shell_command joins the initialization commands
and the main command with the shell logical-AND operator; with no
initialization commands (empty list is falsy in Python) the main
command is returned alone. -/
def create_shell_command (init_commands : List String) (main_command : String) : String :=
  if init_commands = [] then main_command
  else joinSep " && " init_commands ++ " && " ++ main_command

/-- Lines 132-135 of start_terminal: the full command is built from the
init list when the spec has an init key, otherwise it is the main
command alone. -/
def full_command (spec : SlotSpec) : String :=
  match spec.init with
  | some ic => create_shell_command ic spec.start
  | none => spec.start

/-- Execution of a shell command of the form c1 && c2 && ... && cn:
returns the list of commands that actually run, given an environment
telling which commands succeed.  A command runs when all commands
before it succeeded; the first failing command is the last one run. -/
def andChainRuns (env : String → Bool) : List String → List String
  | [] => []
  | c :: rest => c :: (if env c then andChainRuns env rest else [])

/-- One spawned child process group as tracked by the model: the OS
pid (which with os.setsid at line 145 is also the process-group id),
the slot that spawned it, and whether it is still alive (poll at
lines 91, 123, 189, 288 returns None exactly when alive is true). -/
structure ProcRec where
  pid : Nat
  slot : Nat
  alive : Bool
  deriving DecidableEq, Repr

/-- Externally visible side effects of the supervisor operations, in
chronological order: signals sent to a process group (lines 181, 191),
sleeps (lines 125, 186, 271), the Popen spawn attempt and its result
(lines 140-148), and socketio emits (lines 166-170). -/
inductive Act where
  | sigint (pgid : Nat)
  | sigkill (pgid : Nat)
  | sleepSec (secs : Nat)
  | spawnTry (id : Nat) (cmd : String)
  | spawned (id : Nat) (pid : Nat)
  | emitEv (ev : OutEvent)
  deriving DecidableEq, Repr

/-- The mutable module state of app3.py: the pool of processes spawned
so far, the per-slot stored handle (terminals[id] with key process,
none both for a slot never started and before initialization), the
per-slot running flag, the per-slot output buffers terminal_outputs,
a counter supplying fresh pids, and the chronological side-effect
trace. -/
structure MState where
  procs : List ProcRec
  handleOf : Nat → Option Nat
  runningFlag : Nat → Bool
  outputs : Nat → List String
  spawnCtr : Nat
  trace : List Act

/-- The environment the supervisor runs against: for each spawn attempt
(counted), whether Popen raises (some message) or succeeds (none), and
for each pid whether the process dies within the 1-second grace window
after SIGINT. -/
structure Env where
  spawnResult : Nat → Option String
  sigintStops : Nat → Bool

/-- Lines 216-217: at module initialization every slot gets an entry
with no process and running set to False; all buffers start empty. -/
def initial_state : MState :=
  { procs := [], handleOf := fun _ => none, runningFlag := fun _ => false,
    outputs := fun _ => [], spawnCtr := 0, trace := [] }

/-- True when some pool entry with this pid is alive; models
process.poll() is None for the stored Popen object. -/
def procAlive (s : MState) (p : Nat) : Bool :=
  s.procs.any (fun r => r.pid == p && r.alive)

/-- Marks every pool entry with this pid as no longer alive. -/
def killAlive (procs : List ProcRec) (p : Nat) : List ProcRec :=
  procs.map (fun r => if r.pid = p then { r with alive := false } else r)

/-- Line 123: id in terminals, the stored process is not None, and its
poll() is None. -/
def slotLive (s : MState) (id : Nat) : Bool :=
  match s.handleOf id with
  | some p => procAlive s p
  | none => false

/-- Lines 174-200, stop_terminal: when no handle is stored the function
returns False with no effect.  Otherwise it sends SIGINT to the process
group (line 181; a ProcessLookupError for an already dead group is
swallowed), sleeps 1 second (line 186), sends SIGKILL if the process is
still alive (lines 189-193), marks the slot as not running (line 195)
and returns True.  In the model a process that was alive ends up dead
either way: it dies in the grace window when the environment says
SIGINT stops it, and is killed by SIGKILL otherwise. -/
def stop_terminal (env : Env) (s : MState) (id : Nat) : Bool × MState :=
  match s.handleOf id with
  | none => (false, s)
  | some p =>
    (true,
      { s with
        procs := if procAlive s p then killAlive s.procs p else s.procs,
        trace := s.trace ++ [Act.sigint p, Act.sleepSec 1] ++
          (if procAlive s p && !env.sigintStops p then [Act.sigkill p] else []),
        runningFlag := fun n => if n = id then false else s.runningFlag n })

/-- Lines 122-125 of start_terminal: when the slot has a live stored
process it is first stopped and the caller sleeps 1 second before
respawning. -/
def start_pre (env : Env) (s : MState) (id : Nat) : MState :=
  if slotLive s id then
    { (stop_terminal env s id).2 with
      trace := ((stop_terminal env s id).2).trace ++ [Act.sleepSec 1] }
  else s

/-- Lines 150-160 of start_terminal: on a successful Popen the fresh
handle is stored, the running flag is set, and the spawn attempt plus
its result are recorded. -/
def start_spawn_ok (s0 : MState) (id : Nat) (cmd : String) : MState :=
  { s0 with
    procs := s0.procs ++ [{ pid := s0.spawnCtr, slot := id, alive := true }],
    handleOf := fun n => if n = id then some s0.spawnCtr else s0.handleOf n,
    runningFlag := fun n => if n = id then true else s0.runningFlag n,
    spawnCtr := s0.spawnCtr + 1,
    trace := s0.trace ++ [Act.spawnTry id cmd, Act.spawned id s0.spawnCtr] }

/-- Lines 161-171 of start_terminal: on a spawn exception the synthetic
error line is appended to the slot buffer (with no 100-entry trim) and
emitted as a terminal_output event. -/
def start_spawn_fail (s0 : MState) (id : Nat) (cmd reason : String) : MState :=
  { s0 with
    spawnCtr := s0.spawnCtr + 1,
    outputs := fun n =>
      if n = id then s0.outputs n ++ ["Error starting terminal: " ++ reason]
      else s0.outputs n,
    trace := s0.trace ++ [Act.spawnTry id cmd,
      Act.emitEv { id := id, output := "Error starting terminal: " ++ reason ++ "\n" }] }

/-- Lines 121-171, start_terminal: the live-slot pre-stop (start_pre),
then the lookup of line 129, which raises KeyError for an id outside
the configured range (and line 165 of the handler raises again on the
missing buffer), modeled as an error result; then the Popen attempt
with the full command inside a new process group, ending in the
success branch (start_spawn_ok, returning True) or the exception
branch (start_spawn_fail, returning False).  The reader thread started
at line 158 is modeled separately by pump_handle_read. -/
def start_terminal (env : Env) (s : MState) (id : Nat) :
    Except String (Bool × MState) :=
  match terminal_commands id with
  | none => .error "KeyError"
  | some spec =>
    match env.spawnResult (start_pre env s id).spawnCtr with
    | none =>
      .ok (true, start_spawn_ok (start_pre env s id) id (full_command spec))
    | some reason =>
      .ok (false, start_spawn_fail (start_pre env s id) id (full_command spec) reason)

/-- The JSON responses of the start/stop endpoints. -/
inductive ApiResp where
  | started (id : Nat)
  | errorStarting (id : Nat)
  | stopped (id : Nat)
  | errorStopping (id : Nat)
  | invalidId
  deriving DecidableEq, Repr

/-- Lines 233-241, the start endpoint: ids outside 1..6 get the
Invalid terminal ID error without any action. -/
def api_start_terminal (env : Env) (s : MState) (id : Nat) :
    Except String (ApiResp × MState) :=
  if 1 ≤ id ∧ id ≤ 6 then
    match start_terminal env s id with
    | .error e => .error e
    | .ok (true, s') => .ok (ApiResp.started id, s')
    | .ok (false, s') => .ok (ApiResp.errorStarting id, s')
  else .ok (ApiResp.invalidId, s)

/-- Lines 244-252, the stop endpoint: ids outside 1..6 get the
Invalid terminal ID error without any action. -/
def api_stop_terminal (env : Env) (s : MState) (id : Nat) : ApiResp × MState :=
  if 1 ≤ id ∧ id ≤ 6 then
    let r := stop_terminal env s id
    (if r.1 then ApiResp.stopped id else ApiResp.errorStopping id, r.2)
  else (ApiResp.invalidId, s)

/-- Lines 255-262, the terminal_output endpoint: for a configured id it
returns the last five buffered lines joined by newlines (all of them
when there are at most five); for any other id it returns the empty
output instead of an error. -/
def get_terminal_output (s : MState) (id : Nat) : String :=
  if 1 ≤ id ∧ id ≤ 6 then
    if (s.outputs id).length > 5 then joinSep "\n" (takeLast 5 (s.outputs id))
    else joinSep "\n" (s.outputs id)
  else ""

/-- Loop body sequence of start_all (lines 265-272): start each id in
the given order, record the outcome string, and sleep for the delay of
that slot after each start. -/
def start_all_go (env : Env) : List Nat → MState → List (Nat × String) →
    Except String (List (Nat × String) × MState)
  | [], s, acc => .ok (acc, s)
  | id :: rest, s, acc =>
    match start_terminal env s id with
    | .error e => .error e
    | .ok (success, s1) =>
      let outcome := if success then "started" else "failed"
      let s2 := { s1 with trace := s1.trace ++ [Act.sleepSec (delayOf id)] }
      start_all_go env rest s2 (acc ++ [(id, outcome)])

/-- Lines 265-272, the start_all endpoint: starts slots 1..6 in
ascending order with the per-slot settle sleep after each. -/
def start_all (env : Env) (s : MState) :
    Except String (List (Nat × String) × MState) :=
  start_all_go env [1, 2, 3, 4, 5, 6] s []

/-- A socketio event sent to a newly connected client: the
connection_status event of line 296 or a terminal_output event of
lines 302-306. -/
inductive Ev where
  | connStatus
  | termOut (id : Nat) (output : String)
  deriving DecidableEq, Repr

/-- Lines 300-301 and 304: the output payload sent for one slot at
connect time - the last five (or fewer) buffered lines joined by
newlines, with a trailing newline when non-empty. -/
def connect_payload (lines : List String) : String :=
  let last_five := if lines.length > 5 then joinSep "\n" (takeLast 5 lines)
                   else joinSep "\n" lines
  if last_five ≠ "" then last_five ++ "\n" else ""

/-- Lines 293-306, handle_connect: emits the connection_status event,
then for each slot 1..6 in ascending order one terminal_output event
carrying that slot's connect payload. -/
def handle_connect (outputs : Nat → List String) : List Ev :=
  Ev.connStatus ::
    ([1, 2, 3, 4, 5, 6].map (fun id => Ev.termOut id (connect_payload (outputs id))))

/-- Recognizer for terminal_output events of a given slot. -/
def isOutOf (i : Nat) : Ev → Bool
  | .termOut j _ => j == i
  | .connStatus => false

/-- Slot id of a terminal_output event. -/
def evId : Ev → Option Nat
  | .termOut j _ => some j
  | .connStatus => none

/-- The pids of the live pool entries belonging to one slot. -/
def livePidsOf (s : MState) (id : Nat) : List Nat :=
  (s.procs.filter (fun r => r.slot == id && r.alive)).map (fun r => r.pid)

/-- Consistency of the model state: every live pool entry is the one its
slot's stored handle points to, and every pool pid is older than the
fresh-pid counter. -/
def WF (s : MState) : Prop :=
  (∀ r ∈ s.procs, r.alive = true → s.handleOf r.slot = some r.pid) ∧
  (∀ r ∈ s.procs, r.pid < s.spawnCtr)

/-- A sample environment: every spawn succeeds and no process dies
within the SIGINT grace window (so SIGKILL is always needed). -/
def env0 : Env := { spawnResult := fun _ => none, sigintStops := fun _ => false }

/-- C10: the on-demand recent-output query returns, for a configured
slot, exactly the last at-most-five buffered lines joined by newlines
(there is no caller-requested count in the route), and for an id
outside 1..6 it returns the empty output instead of an error. -/
theorem C10_recent_output (s : MState) (id : Nat) :
    get_terminal_output s id =
      (if 1 ≤ id ∧ id ≤ 6 then joinSep "\n" (takeLast 5 (s.outputs id)) else "") ∧
    (takeLast 5 (s.outputs id)).length ≤ 5 := by
  constructor
  · unfold get_terminal_output
    by_cases h : 1 ≤ id ∧ id ≤ 6
    · rw [if_pos h, if_pos h]
      by_cases h5 : (s.outputs id).length > 5
      · rw [if_pos h5]
      · rw [if_neg h5, takeLast_of_le (by omega)]
    · rw [if_neg h, if_neg h]
  · rw [length_takeLast]
    omega

/-- C7: for a slot id outside the configured range 1..6, both the start
endpoint and the stop endpoint answer with the invalid-id error and
leave the state untouched. -/
theorem C7_invalid_slot_no_action (env : Env) (s : MState) (id : Nat)
    (h : ¬(1 ≤ id ∧ id ≤ 6)) :
    api_start_terminal env s id = .ok (ApiResp.invalidId, s) ∧
    api_stop_terminal env s id = (ApiResp.invalidId, s) := by
  unfold api_start_terminal api_stop_terminal
  rw [if_neg h, if_neg h]
  exact ⟨rfl, rfl⟩

/-- Witness for C7 at the unconfigured id 99 on the initial state. -/
theorem C7_invalid_slot_no_action_witness :
    api_start_terminal env0 initial_state 99 = .ok (ApiResp.invalidId, initial_state) ∧
    api_stop_terminal env0 initial_state 99 = (ApiResp.invalidId, initial_state) :=
  C7_invalid_slot_no_action env0 initial_state 99 (by decide)

/-- The connect payload equals the joined last five lines with a
trailing newline when non-empty: the two length branches of lines
300-301 collapse to a single slice expression. -/
theorem connect_payload_eq (lines : List String) :
    connect_payload lines =
      (if joinSep "\n" (takeLast 5 lines) ≠ "" then
        joinSep "\n" (takeLast 5 lines) ++ "\n"
       else "") := by
  simp only [connect_payload]
  by_cases h5 : lines.length > 5
  · rw [if_pos h5]
  · rw [if_neg h5, takeLast_of_le (by omega)]

/-- Buffers with two lines in slot 1 and nothing elsewhere. -/
def bufsC5 : Nat → List String := fun i => if i = 1 then ["a", "b"] else []

/-- C5 counterexample: with two buffered lines in slot 1, the connect
handler emits a single terminal_output event for slot 1 (carrying both
lines joined), not min(5, buffered_count) = 2 events each wrapping one
line as the claim states. -/
theorem C5_onconnect_counterexample :
    ((handle_connect bufsC5).filter (isOutOf 1)).length = 1 ∧
    min 5 (bufsC5 1).length = 2 := by decide

/-- C5 amended: on connect, every configured slot receives exactly one
synthetic terminal_output event whose payload is the last at-most-five
buffered lines of that slot joined by newlines (with a trailing newline
when non-empty), slots appearing in ascending order; unconfigured slots
receive nothing. -/
theorem C5_onconnect_amended (bufs : Nat → List String) (i : Nat) :
    (handle_connect bufs).filter (isOutOf i) =
      (if 1 ≤ i ∧ i ≤ 6 then
        [Ev.termOut i (if joinSep "\n" (takeLast 5 (bufs i)) ≠ "" then
            joinSep "\n" (takeLast 5 (bufs i)) ++ "\n"
          else "")]
       else []) ∧
    (handle_connect bufs).filterMap evId = [1, 2, 3, 4, 5, 6] := by
  constructor
  · by_cases h : 1 ≤ i ∧ i ≤ 6
    · rw [if_pos h]
      obtain ⟨h1, h2⟩ := h
      interval_cases i <;>
        simp [handle_connect, isOutOf, connect_payload_eq]
    · rw [if_neg h]
      have e1 : ((1 : Nat) == i) = false := beq_eq_false_iff_ne.mpr (by omega)
      have e2 : ((2 : Nat) == i) = false := beq_eq_false_iff_ne.mpr (by omega)
      have e3 : ((3 : Nat) == i) = false := beq_eq_false_iff_ne.mpr (by omega)
      have e4 : ((4 : Nat) == i) = false := beq_eq_false_iff_ne.mpr (by omega)
      have e5 : ((5 : Nat) == i) = false := beq_eq_false_iff_ne.mpr (by omega)
      have e6 : ((6 : Nat) == i) = false := beq_eq_false_iff_ne.mpr (by omega)
      simp [handle_connect, isOutOf, e1, e2, e3, e4, e5, e6]
  · rfl

/-- A state whose slot 2 still stores a handle for a process that has
already exited (poll() would not be None). -/
def sDeadProc : MState :=
  { procs := [{ pid := 7, slot := 2, alive := false }],
    handleOf := fun n => if n = 2 then some 7 else none,
    runningFlag := fun n => n == 2,
    outputs := fun _ => [], spawnCtr := 8, trace := [] }

/-- C4 counterexample: stop_terminal on a slot whose stored process has
already exited does not return the NotRunning failure - it returns True
(success) and mutates the slot's running flag, because lines 174-175
only check that a handle object is stored, never poll(). -/
theorem C4_stop_exited_counterexample :
    (stop_terminal env0 sDeadProc 2).1 = true ∧
    ((stop_terminal env0 sDeadProc 2).2).runningFlag 2 = false ∧
    sDeadProc.runningFlag 2 = true := by decide

/-- C4 amended: Stop returns the NotRunning failure with no side
effects exactly when the slot has no stored ProcessHandle (never
started, or the stored process is None) - in particular on a slot that
was never started; whenever a handle is stored, even one whose process
already exited, Stop signals best-effort, marks the slot not running
and returns success. -/
theorem C4_stop_not_running_amended (env : Env) (s : MState) (id : Nat) :
    (s.handleOf id = none → stop_terminal env s id = (false, s)) ∧
    (∀ p, s.handleOf id = some p →
      (stop_terminal env s id).1 = true ∧
      ((stop_terminal env s id).2).runningFlag id = false) := by
  constructor
  · intro h
    unfold stop_terminal
    rw [h]
  · intro p h
    unfold stop_terminal
    rw [h]
    exact ⟨rfl, by simp⟩

/-- Witness for C4: the never-started slot 2 of the initial state gets
the failure result with an unchanged state, and the dead-process state
gets success with the running flag cleared. -/
theorem C4_stop_not_running_amended_witness :
    stop_terminal env0 initial_state 2 = (false, initial_state) ∧
    ((stop_terminal env0 sDeadProc 2).1 = true ∧
     ((stop_terminal env0 sDeadProc 2).2).runningFlag 2 = false) :=
  ⟨(C4_stop_not_running_amended env0 initial_state 2).1 rfl,
   (C4_stop_not_running_amended env0 sDeadProc 2).2 7 rfl⟩

theorem joinSep_append_singleton (sep x : String) :
    ∀ l : List String, l ≠ [] →
      joinSep sep (l ++ [x]) = joinSep sep l ++ sep ++ x := by
  intro l
  induction l with
  | nil => intro h; exact absurd rfl h
  | cons a as ih =>
    intro _
    cases as with
    | nil => rfl
    | cons b bs =>
      have h2 : b :: bs ≠ [] := by simp
      show a ++ sep ++ joinSep sep ((b :: bs) ++ [x]) =
        (a ++ sep ++ joinSep sep (b :: bs)) ++ sep ++ x
      rw [ih h2]
      simp only [String.append_assoc]

theorem andChainRuns_all_true (env : String → Bool) :
    ∀ l : List String, (∀ c ∈ l, env c = true) → andChainRuns env l = l := by
  intro l
  induction l with
  | nil => intro _; rfl
  | cons c rest ih =>
    intro h
    have hc : env c = true := h c (List.mem_cons_self c rest)
    simp only [andChainRuns, hc, if_pos]
    rw [ih (fun d hd => h d (List.mem_cons_of_mem c hd))]

theorem andChainRuns_append_last (env : String → Bool) :
    ∀ (l : List String) (m : String), (∀ c ∈ l, env c = true) →
      andChainRuns env (l ++ [m]) = l ++ [m] := by
  intro l
  induction l with
  | nil =>
    intro m _
    show m :: (if env m then andChainRuns env [] else []) = [m]
    cases henv : env m <;> simp [andChainRuns]
  | cons c rest ih =>
    intro m h
    have hc : env c = true := h c (List.mem_cons_self c rest)
    show c :: (if env c then andChainRuns env (rest ++ [m]) else []) =
      c :: (rest ++ [m])
    rw [hc, if_pos rfl, ih m (fun d hd => h d (List.mem_cons_of_mem c hd))]

theorem andChainRuns_stops (env : String → Bool) :
    ∀ (l : List String) (m : String), (∃ c ∈ l, env c = false) →
      ∃ k, andChainRuns env (l ++ [m]) = l.take k := by
  intro l
  induction l with
  | nil =>
    intro m h
    simp at h
  | cons c rest ih =>
    intro m h
    by_cases hc : env c = true
    · have h' : ∃ d ∈ rest, env d = false := by
        obtain ⟨d, hd, hdf⟩ := h
        rcases List.mem_cons.mp hd with rfl | hd'
        · rw [hc] at hdf; exact absurd hdf (by simp)
        · exact ⟨d, hd', hdf⟩
      obtain ⟨k, hk⟩ := ih m h'
      refine ⟨k + 1, ?_⟩
      show c :: (if env c then andChainRuns env (rest ++ [m]) else []) =
        (c :: rest).take (k + 1)
      rw [hc, if_pos rfl, hk, List.take_succ_cons]
    · have hc' : env c = false := by
        cases henv : env c
        · rfl
        · exact absurd henv hc
      refine ⟨1, ?_⟩
      show c :: (if env c then andChainRuns env (rest ++ [m]) else []) =
        (c :: rest).take 1
      rw [hc', if_neg (by simp), List.take_succ_cons, List.take_zero]

/-- C6: for every configured slot, the spawned command string is the
slot's initialization commands followed by the main command, all joined
with the shell logical-AND operator (the main command alone when there
are no initialization commands); under the AND-chain execution
semantics the main command runs exactly when every initialization
command succeeds, and when some initialization command fails the
executed commands are a prefix of the initialization list, so the main
command never runs. -/
theorem C6_and_chain (id : Nat) (spec : SlotSpec) (env : String → Bool)
    (_hspec : terminal_commands id = some spec) :
    full_command spec = joinSep " && " (spec.init.getD [] ++ [spec.start]) ∧
    ((∀ c ∈ spec.init.getD [], env c = true) →
      andChainRuns env (spec.init.getD [] ++ [spec.start]) =
        spec.init.getD [] ++ [spec.start]) ∧
    ((∃ c ∈ spec.init.getD [], env c = false) →
      ∃ k, andChainRuns env (spec.init.getD [] ++ [spec.start]) =
        (spec.init.getD []).take k) := by
  refine ⟨?_, ?_, ?_⟩
  · unfold full_command create_shell_command
    cases hinit : spec.init with
    | none => rfl
    | some ic =>
      cases hic : ic with
      | nil => rfl
      | cons a as =>
        dsimp only [Option.getD_some]
        rw [if_neg (by simp),
          ← joinSep_append_singleton " && " spec.start (a :: as) (by simp)]
  · intro h
    exact andChainRuns_append_last env (spec.init.getD []) spec.start h
  · intro h
    exact andChainRuns_stops env (spec.init.getD []) spec.start h

/-- Witness for C6 at slot 1 with an environment where every command
succeeds: the whole AND chain, initialization plus main command, runs. -/
theorem C6_and_chain_witness :
    andChainRuns (fun _ => true)
      (ros_setup_commands ++
        ["roslaunch direct_lidar_inertial_odometry dlio.launch rviz:=false pointcloud_topic:=/rslidar_points imu_topic:=/rslidar_imu_data"]) =
      ros_setup_commands ++
        ["roslaunch direct_lidar_inertial_odometry dlio.launch rviz:=false pointcloud_topic:=/rslidar_points imu_topic:=/rslidar_imu_data"] :=
  (C6_and_chain 1 _ (fun _ => true) rfl).2.1 (fun _ _ => rfl)

theorem stop_terminal_preserves (env : Env) (s : MState) (id : Nat) :
    ((stop_terminal env s id).2).outputs = s.outputs ∧
    ((stop_terminal env s id).2).spawnCtr = s.spawnCtr ∧
    ((stop_terminal env s id).2).handleOf = s.handleOf := by
  unfold stop_terminal
  cases h : s.handleOf id <;> simp

theorem start_pre_preserves (env : Env) (s : MState) (id : Nat) :
    (start_pre env s id).outputs = s.outputs ∧
    (start_pre env s id).spawnCtr = s.spawnCtr ∧
    (start_pre env s id).handleOf = s.handleOf := by
  unfold start_pre
  by_cases h : slotLive s id = true
  · rw [if_pos h]
    have hp := stop_terminal_preserves env s id
    exact ⟨hp.1, hp.2.1, hp.2.2⟩
  · rw [if_neg h]
    exact ⟨rfl, rfl, rfl⟩

/-- C9: for a configured slot, when the spawn attempt fails the start
operation appends the synthetic error line to that slot's buffer, emits
it as a terminal_output event on that slot's stream, and returns the
failure result False to the caller. -/
theorem C9_spawn_failure (env : Env) (s : MState) (id : Nat) (spec : SlotSpec)
    (reason : String)
    (hspec : terminal_commands id = some spec)
    (hfail : env.spawnResult s.spawnCtr = some reason) :
    ∃ s', start_terminal env s id = .ok (false, s') ∧
      s'.outputs id = s.outputs id ++ ["Error starting terminal: " ++ reason] ∧
      Act.emitEv { id := id, output := "Error starting terminal: " ++ reason ++ "\n" } ∈
        s'.trace := by
  have hctr : (start_pre env s id).spawnCtr = s.spawnCtr :=
    (start_pre_preserves env s id).2.1
  have hout : (start_pre env s id).outputs = s.outputs :=
    (start_pre_preserves env s id).1
  refine ⟨start_spawn_fail (start_pre env s id) id (full_command spec) reason, ?_, ?_, ?_⟩
  · unfold start_terminal
    rw [hspec, hctr, hfail]
  · unfold start_spawn_fail
    simp [hout]
  · unfold start_spawn_fail
    simp

/-- An environment where every spawn attempt raises with message boom. -/
def envFail : Env :=
  { spawnResult := fun _ => some "boom", sigintStops := fun _ => false }

/-- Witness for C9: starting slot 2 from the initial state under an
environment whose spawn raises with message boom. -/
theorem C9_spawn_failure_witness :
    ∃ s', start_terminal envFail initial_state 2 = .ok (false, s') ∧
      s'.outputs 2 = initial_state.outputs 2 ++ ["Error starting terminal: boom"] ∧
      Act.emitEv { id := 2, output := "Error starting terminal: boom" ++ "\n" } ∈
        s'.trace :=
  C9_spawn_failure envFail initial_state 2 _ "boom" rfl rfl

theorem start_pre_live (env : Env) (s : MState) (id p : Nat)
    (hh : s.handleOf id = some p) (ha : procAlive s p = true) :
    start_pre env s id =
      { s with
        procs := killAlive s.procs p,
        trace := s.trace ++ [Act.sigint p, Act.sleepSec 1] ++
          (if env.sigintStops p then [] else [Act.sigkill p]) ++ [Act.sleepSec 1],
        runningFlag := fun n => if n = id then false else s.runningFlag n } := by
  have hl : slotLive s id = true := by
    unfold slotLive
    rw [hh]
    exact ha
  unfold start_pre
  rw [if_pos hl]
  unfold stop_terminal
  rw [hh]
  cases hsig : env.sigintStops p <;> simp [ha, hsig]

theorem any_alive_killAlive (procs : List ProcRec) (p : Nat) :
    (killAlive procs p).any (fun r => r.pid == p && r.alive) = false := by
  induction procs with
  | nil => rfl
  | cons r rest ih =>
    unfold killAlive at ih ⊢
    rw [List.map_cons, List.any_cons, ih, Bool.or_false]
    by_cases hp : r.pid = p
    · rw [if_pos hp]
      simp
    · rw [if_neg hp]
      have hb : (r.pid == p) = false := beq_eq_false_iff_ne.mpr hp
      rw [hb, Bool.false_and]

theorem filter_slot_killAlive (s : MState)
    (hwf1 : ∀ r ∈ s.procs, r.alive = true → s.handleOf r.slot = some r.pid)
    (id p : Nat) (hh : s.handleOf id = some p) :
    (killAlive s.procs p).filter (fun r => r.slot == id && r.alive) = [] := by
  rw [List.filter_eq_nil_iff]
  intro r hr
  unfold killAlive at hr
  rw [List.mem_map] at hr
  obtain ⟨r0, hr0, rfl⟩ := hr
  by_cases hp : r0.pid = p
  · simp [hp]
  · rw [if_neg hp]
    intro hcontra
    rw [Bool.and_eq_true] at hcontra
    have hslot : r0.slot = id := beq_iff_eq.mp hcontra.1
    have hhr := hwf1 r0 hr0 hcontra.2
    rw [hslot, hh] at hhr
    exact hp (Option.some_injective _ hhr.symm)

/-- C2: starting a slot that already holds a live process first stops
that process (SIGINT to its group, the grace sleep, SIGKILL when it
survived) and sleeps the 1-second drain interval before the spawn
attempt; afterwards the old process is dead and exactly one live
process - the freshly spawned one - belongs to the slot. -/
theorem C2_start_on_live_slot (env : Env) (s : MState) (id p : Nat) (spec : SlotSpec)
    (hwf : WF s) (hh : s.handleOf id = some p) (ha : procAlive s p = true)
    (hspec : terminal_commands id = some spec)
    (hok : env.spawnResult s.spawnCtr = none) :
    ∃ s' kills,
      start_terminal env s id = .ok (true, s') ∧
      procAlive s' p = false ∧
      livePidsOf s' id = [s.spawnCtr] ∧
      (kills = [] ∨ kills = [Act.sigkill p]) ∧
      s'.trace = s.trace ++ [Act.sigint p, Act.sleepSec 1] ++ kills ++
        [Act.sleepSec 1, Act.spawnTry id (full_command spec),
         Act.spawned id s.spawnCtr] := by
  have hpre := start_pre_live env s id p hh ha
  have hplt : p < s.spawnCtr := by
    unfold procAlive at ha
    rw [List.any_eq_true] at ha
    obtain ⟨r, hr, hrp⟩ := ha
    rw [Bool.and_eq_true] at hrp
    have hpid : r.pid = p := beq_iff_eq.mp hrp.1
    have hcnt := hwf.2 r hr
    omega
  have hctr : (start_pre env s id).spawnCtr = s.spawnCtr := by rw [hpre]
  refine ⟨start_spawn_ok (start_pre env s id) id (full_command spec),
    (if env.sigintStops p then [] else [Act.sigkill p]), ?_, ?_, ?_, ?_, ?_⟩
  · unfold start_terminal
    rw [hspec, hctr, hok]
  · rw [hpre]
    unfold start_spawn_ok procAlive
    dsimp only
    rw [List.any_append, any_alive_killAlive, Bool.false_or, List.any_cons]
    have hb : (s.spawnCtr == p) = false := beq_eq_false_iff_ne.mpr (by omega)
    simp [hb]
  · rw [hpre]
    unfold start_spawn_ok livePidsOf
    dsimp only
    rw [List.filter_append, filter_slot_killAlive s hwf.1 id p hh]
    simp
  · cases hsig : env.sigintStops p <;> simp
  · rw [hpre]
    unfold start_spawn_ok
    dsimp only
    simp [List.append_assoc]

/-- A consistent state whose slot 1 holds the live process 3. -/
def sLive : MState :=
  { procs := [{ pid := 3, slot := 1, alive := true }],
    handleOf := fun n => if n = 1 then some 3 else none,
    runningFlag := fun n => n == 1,
    outputs := fun _ => [], spawnCtr := 4, trace := [] }

/-- The launch specification of slot 1. -/
def dlioSpec : SlotSpec :=
  { name := "DLIO", init := some ros_setup_commands,
    start := "roslaunch direct_lidar_inertial_odometry dlio.launch rviz:=false pointcloud_topic:=/rslidar_points imu_topic:=/rslidar_imu_data",
    delay := 2 }

/-- Witness for C2: restarting slot 1 of sLive, whose process 3 is
live, under an environment where spawning succeeds and process 3
survives SIGINT. -/
theorem C2_start_on_live_slot_witness :
    ∃ s' kills,
      start_terminal env0 sLive 1 = .ok (true, s') ∧
      procAlive s' 3 = false ∧
      livePidsOf s' 1 = [4] ∧
      (kills = [] ∨ kills = [Act.sigkill 3]) ∧
      s'.trace = sLive.trace ++ [Act.sigint 3, Act.sleepSec 1] ++ kills ++
        [Act.sleepSec 1, Act.spawnTry 1 (full_command dlioSpec),
         Act.spawned 1 4] :=
  C2_start_on_live_slot env0 sLive 1 3 dlioSpec (by unfold WF; decide) (by decide)
    (by decide) rfl rfl

/-- Keeps the spawn attempts and sleeps of a trace: the events the
start_all ordering property talks about. -/
def keepStartSleep : Act → Bool
  | .spawnTry _ _ => true
  | .sleepSec _ => true
  | _ => false

/-- The full command a slot spawns (empty for unconfigured ids). -/
def cmdOf (id : Nat) : String :=
  match terminal_commands id with
  | some spec => full_command spec
  | none => ""

theorem start_terminal_fresh (env : Env) (s : MState) (id : Nat) (spec : SlotSpec)
    (hspec : terminal_commands id = some spec) (hnone : s.handleOf id = none) :
    ∃ b s' tail,
      start_terminal env s id = .ok (b, s') ∧
      s'.trace = s.trace ++ (Act.spawnTry id (full_command spec) :: tail) ∧
      tail.filter keepStartSleep = [] ∧
      (∀ j, j ≠ id → s'.handleOf j = s.handleOf j) := by
  have hl : slotLive s id = false := by
    unfold slotLive
    rw [hnone]
  have hpre : start_pre env s id = s := by
    unfold start_pre
    simp [hl]
  have heq : start_terminal env s id =
      match env.spawnResult s.spawnCtr with
      | none => .ok (true, start_spawn_ok s id (full_command spec))
      | some reason => .ok (false, start_spawn_fail s id (full_command spec) reason) := by
    unfold start_terminal
    rw [hspec, hpre]
  cases hres : env.spawnResult s.spawnCtr with
  | none =>
    rw [hres] at heq
    refine ⟨true, _, [Act.spawned id s.spawnCtr], heq, rfl, rfl, ?_⟩
    intro j hj
    unfold start_spawn_ok
    dsimp only
    rw [if_neg hj]
  | some reason =>
    rw [hres] at heq
    exact ⟨false, _,
      [Act.emitEv { id := id, output := "Error starting terminal: " ++ reason ++ "\n" }],
      heq, rfl, rfl, fun j _ => rfl⟩

theorem start_all_go_spec (env : Env) :
    ∀ (ids : List Nat) (s : MState) (acc : List (Nat × String)),
      (∀ i ∈ ids, (terminal_commands i).isSome = true) →
      ids.Nodup →
      (∀ i ∈ ids, s.handleOf i = none) →
      ∃ out s' delta,
        start_all_go env ids s acc = .ok (acc ++ out, s') ∧
        out.map Prod.fst = ids ∧
        (∀ e ∈ out, e.2 = "started" ∨ e.2 = "failed") ∧
        s'.trace = s.trace ++ delta ∧
        delta.filter keepStartSleep =
          (ids.map (fun i => [Act.spawnTry i (cmdOf i), Act.sleepSec (delayOf i)])).flatten := by
  intro ids
  induction ids with
  | nil =>
    intro s acc _ _ _
    exact ⟨[], s, [], by simp [start_all_go], rfl, by simp, by simp, rfl⟩
  | cons id rest ih =>
    intro s acc hconf hnodup hnone
    have hspec0 : (terminal_commands id).isSome = true :=
      hconf id (List.mem_cons_self id rest)
    obtain ⟨spec, hspec⟩ := Option.isSome_iff_exists.mp hspec0
    obtain ⟨b, s1, tail, heq, htr, hfil, hh⟩ :=
      start_terminal_fresh env s id spec hspec (hnone id (List.mem_cons_self id rest))
    have hcmd : full_command spec = cmdOf id := by
      unfold cmdOf
      rw [hspec]
    have hstep : start_all_go env (id :: rest) s acc =
        start_all_go env rest
          { s1 with trace := s1.trace ++ [Act.sleepSec (delayOf id)] }
          (acc ++ [(id, if b then "started" else "failed")]) := by
      simp only [start_all_go]
      rw [heq]
    have hnone2 : ∀ i ∈ rest,
        ({ s1 with trace := s1.trace ++ [Act.sleepSec (delayOf id)] } : MState).handleOf i
          = none := by
      intro i hi
      have hji : i ≠ id := by
        intro hcontra
        rw [hcontra] at hi
        exact (List.nodup_cons.mp hnodup).1 hi
      show s1.handleOf i = none
      rw [hh i hji]
      exact hnone i (List.mem_cons_of_mem id hi)
    obtain ⟨out', s', delta', hgo, hmap, hout, htr', hfil'⟩ :=
      ih { s1 with trace := s1.trace ++ [Act.sleepSec (delayOf id)] }
        (acc ++ [(id, if b then "started" else "failed")])
        (fun i hi => hconf i (List.mem_cons_of_mem id hi))
        (List.nodup_cons.mp hnodup).2 hnone2
    refine ⟨(id, if b then "started" else "failed") :: out', s',
      (Act.spawnTry id (full_command spec) :: tail) ++ [Act.sleepSec (delayOf id)] ++ delta',
      ?_, ?_, ?_, ?_, ?_⟩
    · rw [hstep, hgo, List.append_assoc, List.singleton_append]
    · rw [List.map_cons, hmap]
    · intro e he
      rcases List.mem_cons.mp he with rfl | he'
      · cases b <;> simp
      · exact hout e he'
    · rw [htr']
      show (s1.trace ++ [Act.sleepSec (delayOf id)]) ++ delta' = _
      rw [htr]
      simp [List.append_assoc]
    · rw [List.filter_append, List.filter_append, hfil', List.map_cons,
        List.flatten_cons, List.filter_cons_of_pos (by rfl), hfil, hcmd]
      rfl

/-- C8: start_all starts the six configured slots in ascending order -
the filtered side-effect trace is exactly the spawn attempt of slot 1,
the sleep for slot 1's settle delay, the spawn attempt of slot 2, and
so on - returns one outcome entry per slot in order, and every entry is
started or failed, so one slot's failure never aborts the rest (the
environment is arbitrary and may fail any spawn). -/
theorem C8_start_all (env : Env) (s : MState)
    (hnone : ∀ i ∈ [1, 2, 3, 4, 5, 6], s.handleOf i = none) :
    ∃ out s' delta,
      start_all env s = .ok (out, s') ∧
      out.map Prod.fst = [1, 2, 3, 4, 5, 6] ∧
      (∀ e ∈ out, e.2 = "started" ∨ e.2 = "failed") ∧
      s'.trace = s.trace ++ delta ∧
      delta.filter keepStartSleep =
        [Act.spawnTry 1 (cmdOf 1), Act.sleepSec (delayOf 1),
         Act.spawnTry 2 (cmdOf 2), Act.sleepSec (delayOf 2),
         Act.spawnTry 3 (cmdOf 3), Act.sleepSec (delayOf 3),
         Act.spawnTry 4 (cmdOf 4), Act.sleepSec (delayOf 4),
         Act.spawnTry 5 (cmdOf 5), Act.sleepSec (delayOf 5),
         Act.spawnTry 6 (cmdOf 6), Act.sleepSec (delayOf 6)] := by
  obtain ⟨out, s', delta, hgo, hmap, hout, htr, hfil⟩ :=
    start_all_go_spec env [1, 2, 3, 4, 5, 6] s [] (by decide) (by decide) hnone
  refine ⟨out, s', delta, ?_, hmap, hout, htr, ?_⟩
  · unfold start_all
    rw [hgo, List.nil_append]
  · rw [hfil]
    rfl

/-- An environment in which the very first spawn attempt fails with
message boom and all later attempts succeed. -/
def envMix : Env :=
  { spawnResult := fun c => if c = 0 then some "boom" else none,
    sigintStops := fun _ => false }

/-- Witness for C8 from the freshly initialized state under an
environment whose first spawn (slot 1) fails: the remaining slots are
still started in order. -/
theorem C8_start_all_witness :
    ∃ out s' delta,
      start_all envMix initial_state = .ok (out, s') ∧
      out.map Prod.fst = [1, 2, 3, 4, 5, 6] ∧
      (∀ e ∈ out, e.2 = "started" ∨ e.2 = "failed") ∧
      s'.trace = initial_state.trace ++ delta ∧
      delta.filter keepStartSleep =
        [Act.spawnTry 1 (cmdOf 1), Act.sleepSec (delayOf 1),
         Act.spawnTry 2 (cmdOf 2), Act.sleepSec (delayOf 2),
         Act.spawnTry 3 (cmdOf 3), Act.sleepSec (delayOf 3),
         Act.spawnTry 4 (cmdOf 4), Act.sleepSec (delayOf 4),
         Act.spawnTry 5 (cmdOf 5), Act.sleepSec (delayOf 5),
         Act.spawnTry 6 (cmdOf 6), Act.sleepSec (delayOf 6)] :=
  C8_start_all envMix initial_state (fun _ _ => rfl)
